import Mathlib

/-!
Verification development for the satellite-task record backend.

The definitions below are a shallow embedding of the data-access layer
(`lib/db.js`), the import pipeline (`api/import.js`, `api/import-batch.js`)
and the record/statistics/clear HTTP handlers (`api/records.js`, the stats
and clear handlers) of the repository.  JavaScript strings are `String`,
JavaScript numbers that hold timestamps or spreadsheet serials are `Int`
(all quantities involved are integral and well inside the exact range of
IEEE doubles), records are structures of `Option` fields (`none` models an
absent object key), and the Postgres table is a list of rows together with
the current value of the `id` sequence.  Floating point, the connection
pool, the in-memory query cache and real time are not modelled; the claims
under study do not touch them.
-/

namespace SatRec

/-- JavaScript `a || b` on two possibly-absent string values: an absent key
or the empty string is falsy and falls through to `b`. -/
def jsOrS (a b : Option String) : Option String :=
  match a with
  | some s => if s = "" then b else some s
  | none => b

/-- JavaScript `a || b || c` on possibly-absent string values. -/
def jsOrS3 (a b c : Option String) : Option String :=
  jsOrS a (jsOrS b c)

/-- JavaScript `a || b || d` where `d` is a (truthy) string default, as used
for the sentinel "unknown" fields of `batchInsertRecords` (db.js 195-201). -/
def jsOrD (a b : Option String) (d : String) : String :=
  match jsOrS a b with
  | some s => if s = "" then d else s
  | none => d

/-- A JavaScript value that may arrive in a time-valued field: a `Date`
object (carried as its epoch-milliseconds timestamp), a string, a number
(spreadsheet serial day count; integral in this model) or `null`. -/
inductive TimeValue where
  | date (ms : Int)
  | str (s : String)
  | num (n : Int)
  | tnull
deriving DecidableEq, Repr

/-- JavaScript truthiness of a `TimeValue`: `Date` objects are always
truthy, `""`, `0` and `null` are falsy. -/
def tvTruthy : TimeValue → Bool
  | .date _ => true
  | .str s => s ≠ ""
  | .num n => n ≠ 0
  | .tnull => false

/-- JavaScript `a || b` on two possibly-absent time values (`none` models an
absent key, `some .tnull` a key holding `null`). -/
def jsOrT (a b : Option TimeValue) : Option TimeValue :=
  match a with
  | some tv => if tvTruthy tv then some tv else b
  | none => b

/-- JavaScript `a || b || c || ''` for the time-field alias chain of
the import handlers (import.js 91, import-batch.js 45): the chain ends in
the empty-string default. -/
def jsOrT3Def (a b c : Option TimeValue) : TimeValue :=
  match jsOrT a (jsOrT b c) with
  | some tv => tv
  | none => .str ""

/-- Rendering of a `TimeValue` inside a template literal (the invalid-time
error message of the import handlers).  Strings render as themselves and
numbers in decimal, matching JavaScript; the two remaining constructors
cannot reach that message. -/
def tvRepr : TimeValue → String
  | .date ms => "Date(" ++ toString ms ++ ")"
  | .str s => s
  | .num n => toString n
  | .tnull => "null"

/-- Largest `|milliseconds|` a JavaScript `Date` can represent; beyond it
`new Date(ms)` is an Invalid Date and `getTime()` is `NaN`. -/
def maxDateMs : Nat := 8640000000000000

/-- Days from the civil epoch 1970-01-01 for a calendar date (proleptic
Gregorian).  Standard civil-from-days companion algorithm. -/
def daysFromCivil (y : Int) (m d : Nat) : Int :=
  let yAdj : Int := if m ≤ 2 then y - 1 else y
  let era : Int := (if 0 ≤ yAdj then yAdj else yAdj - 399) / 400
  let yoe : Nat := (yAdj - era * 400).toNat
  let mp : Nat := if 2 < m then m - 3 else m + 9
  let doy : Nat := (153 * mp + 2) / 5 + d - 1
  let doe : Nat := yoe * 365 + yoe / 4 - yoe / 100 + doy
  era * 146097 + (doe : Int) - 719468

/-- Calendar date (year, month, day) of a day count relative to 1970-01-01
(proleptic Gregorian); inverse of `daysFromCivil`. -/
def civilFromDays (z0 : Int) : Int × Nat × Nat :=
  let z : Int := z0 + 719468
  let era : Int := (if 0 ≤ z then z else z - 146096) / 146097
  let doe : Nat := (z - era * 146097).toNat
  let yoe : Nat := (doe - doe / 1460 + doe / 36524 - doe / 146096) / 365
  let doy : Nat := doe - (365 * yoe + yoe / 4 - yoe / 100)
  let mp : Nat := (5 * doy + 2) / 153
  let d : Nat := doy - (153 * mp + 2) / 5 + 1
  let m : Nat := if mp < 10 then mp + 3 else mp - 9
  (if m ≤ 2 then era * 400 + yoe + 1 else era * 400 + yoe, m, d)

/-- Calendar date of an epoch-milliseconds timestamp (floor day). -/
def civilFromMs (ms : Int) : Int × Nat × Nat :=
  civilFromDays (ms / 86400000)

/-- Numeric value of a digit list. -/
def digitsToNat (cs : List Char) : Nat :=
  cs.foldl (fun acc c => acc * 10 + (c.toNat - 48)) 0

/-- Split a character list on a separator character. -/
def splitOnCharGo (sep : Char) (cur : List Char) : List Char → List String
  | [] => [String.mk cur.reverse]
  | c :: cs =>
    if c = sep then String.mk cur.reverse :: splitOnCharGo sep [] cs
    else splitOnCharGo sep (c :: cur) cs

/-- Split a string on a single-character separator (the behaviour of the
host `split` for the separators used here). -/
def splitOnChar (sep : Char) (s : String) : List String :=
  splitOnCharGo sep [] s.data

/-- Decimal value of an all-digit, non-empty string (`none` otherwise). -/
def strToNat (s : String) : Option Nat :=
  if s.data ≠ [] ∧ s.data.all Char.isDigit then some (digitsToNat s.data) else none

/-- JavaScript `String.prototype.trim`: strip whitespace from both ends. -/
def trimJs (s : String) : String :=
  String.mk (((s.data.dropWhile Char.isWhitespace).reverse.dropWhile Char.isWhitespace).reverse)

/-- Parse the `YYYY-MM-DD` part of a date string. -/
def parseYmd (s : String) : Option Int :=
  match splitOnChar '-' s with
  | [ys, ms, ds] =>
    match strToNat ys, strToNat ms, strToNat ds with
    | some y, some m, some d =>
      if 1 ≤ m ∧ m ≤ 12 ∧ 1 ≤ d ∧ d ≤ 31 then some (daysFromCivil (y : Int) m d)
      else none
    | _, _, _ => none
  | _ => none

/-- Parse the `HH:MM:SS` part of a date string, to milliseconds. -/
def parseHms (s : String) : Option Int :=
  match splitOnChar ':' s with
  | [hs, ms, ss] =>
    match strToNat hs, strToNat ms, strToNat ss with
    | some h, some m, some sec =>
      if h ≤ 23 ∧ m ≤ 59 ∧ sec ≤ 59 then
        some ((h : Int) * 3600000 + (m : Int) * 60000 + (sec : Int) * 1000)
      else none
    | _, _, _ => none
  | _ => none

/-- The host `new Date(string)` parser, restricted to the wall-clock
formats `YYYY-MM-DD HH:MM:SS` and `YYYY-MM-DD` actually exchanged by this
application; every other string is an Invalid Date (`none`).  Following the
design note that time strings are stored as literal wall-clock values with
no timezone shift end to end, the result is the wall-clock value encoded as
milliseconds with zero offset. -/
def parseDateString (s : String) : Option Int :=
  match splitOnChar ' ' s with
  | [dpart] =>
    match parseYmd dpart with
    | some days => some (days * 86400000)
    | none => none
  | [dpart, tpart] =>
    match parseYmd dpart, parseHms tpart with
    | some days, some ms => some (days * 86400000 + ms)
    | _, _ => none
  | _ => none

/-- `parseFileTime` (db.js 224-248).  Falsy input gives `null`; a `Date` is
returned as is; a string is parsed by the host date parser (an unparsable
string falls through every branch to `null`); a number is treated as a
spreadsheet serial day count and converted with the fixed epoch offset
`(value - 25569) * 86400000` ms, the `isNaN(date.getTime())` guard
rejecting values outside the representable `Date` range. -/
def parseFileTime (timeValue : Option TimeValue) : Option Int :=
  match timeValue with
  | none => none
  | some tv =>
    if tvTruthy tv then
      match tv with
      | .date ms => some ms
      | .str s => parseDateString s
      | .num n =>
        let ms : Int := (n - 25569) * 86400000
        if ms.natAbs ≤ maxDateMs then some ms else none
      | .tnull => none
    else none

/-- A raw import row: a JavaScript object whose keys are the field aliases
the import pipeline and `batchInsertRecords` look up.  `none` models an
absent key.  The `_cn` fields carry the localized column labels
(`计划ID`, `开始时间`, `任务结果状态`, `所属客户`, `卫星名称`, `测站名称`,
`测站ID`, `任务类型`), the snake-case fields the English aliases, and the
`_sp` fields the spaced English aliases (`Plan ID`, `Start Time`,
`Task Result`) consulted only by the import handlers.  Identifier-like
values that could arrive as JSON numbers are modelled as their decimal
strings. -/
structure ImportRow where
  planId_cn : Option String := none
  plan_id : Option String := none
  planId_sp : Option String := none
  startTime_cn : Option TimeValue := none
  start_time : Option TimeValue := none
  startTime_sp : Option TimeValue := none
  taskResult_cn : Option String := none
  task_result : Option String := none
  taskResult_sp : Option String := none
  customer_cn : Option String := none
  customer : Option String := none
  satelliteName_cn : Option String := none
  satellite_name : Option String := none
  stationName_cn : Option String := none
  station_name : Option String := none
  stationId_cn : Option String := none
  station_id : Option String := none
  taskType_cn : Option String := none
  task_type : Option String := none
deriving DecidableEq, Repr

/-- A committed row of `satellite_records`.  The columns are exactly the
ones `batchInsertRecords` writes; `plan_id` is the primary key and
`start_time` is `NOT NULL`, so both are non-optional here.  `raw_data` is
the JSON serialization of the inserted row object, carried as the row
itself.  The `SERIAL id` and the `created_at`/`updated_at` audit columns
are not consulted by any property under study and are left out; the `id`
sequence itself is modelled in `DbState`. -/
structure StoredRecord where
  plan_id : String
  customer : String
  satellite_name : String
  station_name : String
  station_id : String
  start_time : Int
  task_type : String
  task_result : String
  raw_data : ImportRow
deriving DecidableEq, Repr

/-- The persistent state: the `satellite_records` table (in physical order)
and the current value of its `id` sequence.  `TRUNCATE ... RESTART
IDENTITY` resets `seq` to 1. -/
structure DbState where
  rows : List StoredRecord := []
  seq : Nat := 1
deriving DecidableEq, Repr

/-- The plan-id column of a table, in row order. -/
def keys (rows : List StoredRecord) : List String :=
  rows.map (fun r => r.plan_id)

/-- One INSERT of `batchInsertRecords` (db.js 193-203): the parameter tuple
built from the alias chains with sentinel defaults, `startTime` from
`parseFileTime`.  The statement succeeds iff the `NOT NULL` columns
`plan_id` and `start_time` receive non-null values (`customer` through
`task_result` always get truthy defaults); `none` is the constraint
violation the per-row `catch` observes.  VARCHAR length limits are not
modelled. -/
def rowToStored (record : ImportRow) : Option StoredRecord :=
  let startTime := parseFileTime (jsOrT record.startTime_cn record.start_time)
  match jsOrS record.planId_cn record.plan_id, startTime with
  | some pid, some t =>
    some
      { plan_id := pid
        customer := jsOrD record.customer_cn record.customer "未知客户"
        satellite_name := jsOrD record.satelliteName_cn record.satellite_name "未知卫星"
        station_name := jsOrD record.stationName_cn record.station_name "未知测站"
        station_id := jsOrD record.stationId_cn record.station_id "未知ID"
        start_time := t
        task_type := jsOrD record.taskType_cn record.task_type "未知类型"
        task_result := jsOrD record.taskResult_cn record.task_result "未知状态"
        raw_data := record }
  | _, _ => none

/-- `INSERT ... ON CONFLICT (plan_id) DO UPDATE` against a table whose
`plan_id` values are unique: if a row with the same key exists it is
overwritten in place (all mutable columns take the excluded row's values),
otherwise the new row is appended. -/
def upsert (rows : List StoredRecord) (r : StoredRecord) : List StoredRecord :=
  match rows with
  | [] => [r]
  | x :: xs => if x.plan_id = r.plan_id then r :: xs else x :: upsert xs r

/-- Transaction-loop state of `batchInsertRecords`: the working table and
sequence, the `inserted` counter, and whether the transaction has been
aborted by a failed statement. -/
structure TxRes where
  rows : List StoredRecord
  seq : Nat
  inserted : Nat
  aborted : Bool
deriving DecidableEq, Repr

/-- The per-row loop of `batchInsertRecords` (db.js 188-208) with Postgres
transaction semantics: each attempted INSERT consumes one `id` sequence
value (sequences are non-transactional); a failed INSERT raises, the JS
`catch` logs and continues, but the transaction is now aborted, so every
later INSERT in the same transaction fails with "current transaction is
aborted" and increments nothing. -/
def batchGo (rows : List StoredRecord) (seq inserted : Nat) (aborted : Bool) :
    List ImportRow → TxRes
  | [] => ⟨rows, seq, inserted, aborted⟩
  | record :: rest =>
    if aborted then batchGo rows seq inserted true rest
    else
      match rowToStored record with
      | some r => batchGo (upsert rows r) (seq + 1) (inserted + 1) false rest
      | none => batchGo rows (seq + 1) inserted true rest

/-- `batchInsertRecords` (db.js 163-219): BEGIN, the per-row upsert loop,
COMMIT.  Issuing COMMIT on an aborted transaction performs a ROLLBACK and
reports success, so in that case the table reverts to its state at BEGIN
while the function still returns the pre-abort `inserted` count.  Sequence
consumption survives the rollback. -/
def batchInsertRecords (st : DbState) (records : List ImportRow) : DbState × Nat :=
  let res := batchGo st.rows st.seq 0 false records
  (⟨if res.aborted then st.rows else res.rows, res.seq⟩, res.inserted)

/-- The options object of `getRecords` (db.js 264-276) with its defaults:
page 1 and, when no limit is supplied, `Number.MAX_SAFE_INTEGER` (no row
cap).  Dates are carried as wall-clock millisecond timestamps.  Every
caller in the repository supplies `page ≥ 1`; a zero page would make the
SQL OFFSET negative and error, which no claim exercises. -/
structure QueryOptions where
  page : Nat := 1
  limit : Nat := 9007199254740991
  startDate : Option Int := none
  endDate : Option Int := none
  taskResult : Option String := none
  planId : Option String := none
  customer : Option String := none
  satelliteName : Option String := none
  stationName : Option String := none
  stationId : Option String := none
  taskType : Option String := none
deriving DecidableEq, Repr

/-- Truthiness of an optional string filter value: absent keys and the
empty string are falsy, so `if (field)` skips them. -/
def presentS (v : Option String) : Bool :=
  match v with
  | some s => s ≠ ""
  | none => false

/-- Truthiness of an optional date filter: the handlers store `Date`
objects, which are always truthy when the key is set. -/
def presentD (v : Option Int) : Bool :=
  v.isSome

/-- One parameterized predicate of the WHERE clause of `getRecords`: the
payload is the bound parameter value. -/
inductive Cond where
  | startGe (t : Int)
  | endLe (t : Int)
  | taskResultEq (s : String)
  | planIdEq (s : String)
  | customerEq (s : String)
  | satelliteNameEq (s : String)
  | stationNameEq (s : String)
  | stationIdEq (s : String)
  | taskTypeEq (s : String)
deriving DecidableEq, Repr

/-- Row semantics of one WHERE-clause predicate. -/
def evalCond (c : Cond) (r : StoredRecord) : Bool :=
  match c with
  | .startGe t => t ≤ r.start_time
  | .endLe t => r.start_time ≤ t
  | .taskResultEq s => r.task_result = s
  | .planIdEq s => r.plan_id = s
  | .customerEq s => r.customer = s
  | .satelliteNameEq s => r.satellite_name = s
  | .stationNameEq s => r.station_name = s
  | .stationIdEq s => r.station_id = s
  | .taskTypeEq s => r.task_type = s

/-- The sequential WHERE-clause builder of `getRecords` (db.js 278-336):
each truthy option field pushes exactly one predicate, in the source's
fixed field order; the bound parameter list mirrors this list one to one,
so the predicate pushed `i`-th is the one parameterized by placeholder
`$i`. -/
def buildWhere (o : QueryOptions) : List Cond :=
  let cs : List Cond := []
  let cs := match o.startDate with
    | some t => cs ++ [.startGe t]
    | none => cs
  let cs := match o.endDate with
    | some t => cs ++ [.endLe t]
    | none => cs
  let cs := if presentS o.taskResult then cs ++ [.taskResultEq (o.taskResult.getD "")] else cs
  let cs := if presentS o.planId then cs ++ [.planIdEq (o.planId.getD "")] else cs
  let cs := if presentS o.customer then cs ++ [.customerEq (o.customer.getD "")] else cs
  let cs := if presentS o.satelliteName then cs ++ [.satelliteNameEq (o.satelliteName.getD "")] else cs
  let cs := if presentS o.stationName then cs ++ [.stationNameEq (o.stationName.getD "")] else cs
  let cs := if presentS o.stationId then cs ++ [.stationIdEq (o.stationId.getD "")] else cs
  let cs := if presentS o.taskType then cs ++ [.taskTypeEq (o.taskType.getD "")] else cs
  cs

/-- `WHERE c1 AND c2 AND ...` (an empty clause matches everything). -/
def matchesWhere (o : QueryOptions) (r : StoredRecord) : Bool :=
  (buildWhere o).all (fun c => evalCond c r)

/-- Insert into a list kept in descending `start_time` order (before the
first strictly smaller element). -/
def insertDesc (r : StoredRecord) : List StoredRecord → List StoredRecord
  | [] => [r]
  | x :: xs => if x.start_time < r.start_time then r :: x :: xs else x :: insertDesc r xs

/-- `ORDER BY start_time DESC` as an insertion sort. -/
def sortDesc : List StoredRecord → List StoredRecord
  | [] => []
  | x :: xs => insertDesc x (sortDesc xs)

/-- `Math.ceil(total / limit)` for the positive limits the callers supply.
(JavaScript would give `Infinity` for limit 0; no caller does that.) -/
def ceilDiv (total limit : Nat) : Nat :=
  (total + limit - 1) / limit

/-- The result object of `getRecords`. -/
structure QueryResult where
  records : List StoredRecord
  total : Nat
  page : Nat
  limit : Nat
  totalPages : Nat
deriving DecidableEq, Repr

/-- `getRecords` (db.js 253-387): filter by the assembled WHERE clause,
order by `start_time DESC`, and page with `LIMIT limit OFFSET
(page-1)*limit`; `total` is the unpaged matching count.  The in-memory
query cache only replays a previously computed result within its TTL and
is not modelled. -/
def getRecords (db : List StoredRecord) (o : QueryOptions) : QueryResult :=
  let matching := db.filter (fun r => matchesWhere o r)
  let sorted := sortDesc matching
  let offset := (o.page - 1) * o.limit
  { records := (sorted.drop offset).take o.limit
    total := matching.length
    page := o.page
    limit := o.limit
    totalPages := ceilDiv matching.length o.limit }

/-- The fixed closed set of failure-category result strings of the
statistics query (db.js 419). -/
def failureSet : List String :=
  ["因设备故障失败", "因操作失误失败", "未跟踪", "因卫星方原因失败", "任务成功数据处理失误"]

/-- The aggregate row returned by `getStats`. -/
structure Stats where
  total_plans : Nat
  total_records : Nat
  total_failures : Nat
  earliest_time : Option Int
  latest_time : Option Int
deriving DecidableEq, Repr

/-- `MIN` over the in-range start times (`NULL` on an empty range). -/
def minStart (times : List Int) : Option Int :=
  match times with
  | [] => none
  | t :: ts => some (ts.foldl min t)

/-- `MAX` over the in-range start times (`NULL` on an empty range). -/
def maxStart (times : List Int) : Option Int :=
  match times with
  | [] => none
  | t :: ts => some (ts.foldl max t)

/-- The optional time-range WHERE clause shared by `getStats`
(db.js 399-413): `start_time >= startDate AND start_time <= endDate`, each
bound only when supplied. -/
def inRange (startDate endDate : Option Int) (r : StoredRecord) : Bool :=
  (match startDate with
    | some t => t ≤ r.start_time
    | none => true)
  && (match endDate with
    | some t => r.start_time ≤ t
    | none => true)

/-- `getStats` (db.js 392-428): distinct plan count, row count, failure
count over the fixed category set, and the range of start times, over the
optionally time-bounded table. -/
def getStats (db : List StoredRecord) (startDate endDate : Option Int) : Stats :=
  let rows := db.filter (fun r => inRange startDate endDate r)
  { total_plans := (keys rows).dedup.length
    total_records := rows.length
    total_failures := (rows.filter (fun r => r.task_result ∈ failureSet)).length
    earliest_time := minStart (rows.map (fun r => r.start_time))
    latest_time := maxStart (rows.map (fun r => r.start_time)) }

/-- A JSON scalar of the stats response: `success_rate` is the number `0`
on an empty table and a fixed-point decimal string otherwise. -/
inductive JsonVal where
  | num (q : ℚ)
  | str (s : String)
deriving DecidableEq, Repr

/-- `x.toFixed(2)` for the non-negative exact rationals produced by the
success-rate formula, as decimal rounding half up (the binary-double tie
behaviour of the host `toFixed` never differs on the values reached
here). -/
def toFixed2 (q : ℚ) : String :=
  let c : Int := ⌊q * 100 + 1 / 2⌋
  let whole := c / 100
  let frac := (c % 100).toNat
  toString whole ++ "." ++ (if frac < 10 then "0" else "") ++ toString frac

/-- The processed statistics payload of the stats handler. -/
structure ProcessedStats where
  total_records : Nat
  total_plans : Nat
  total_failures : Nat
  earliest_time : Option Int
  latest_time : Option Int
  success_rate : JsonVal
deriving DecidableEq, Repr

/-- The stats handler's post-processing (stats handler lines 43-53):
`success_rate` is `((total_records - total_failures) / total_records *
100).toFixed(2)` when `total_records > 0`, and the number `0` otherwise. -/
def processStats (s : Stats) : ProcessedStats :=
  { total_records := s.total_records
    total_plans := s.total_plans
    total_failures := s.total_failures
    earliest_time := s.earliest_time
    latest_time := s.latest_time
    success_rate :=
      if 0 < s.total_records then
        .str (toFixed2 (((s.total_records : ℚ) - (s.total_failures : ℚ)) / (s.total_records : ℚ) * 100))
      else .num 0 }

/-- Leading decimal digits of a character list. -/
def takeDigits : List Char → List Char
  | [] => []
  | c :: cs => if c.isDigit then c :: takeDigits cs else []

/-- JavaScript `parseInt` on a string, base 10: skip leading whitespace,
optional sign, then the longest digit prefix; `NaN` (`none`) when no digit
follows.  (Radix prefixes never occur in the query strings handled
here.) -/
def parseIntJs (s : String) : Option Int :=
  let cs := s.data.dropWhile (fun c => c.isWhitespace)
  match cs with
  | '-' :: rest =>
    match takeDigits rest with
    | [] => none
    | ds => some (-(digitsToNat ds : Int))
  | '+' :: rest =>
    match takeDigits rest with
    | [] => none
    | ds => some (digitsToNat ds : Int)
  | _ =>
    match takeDigits cs with
    | [] => none
    | ds => some (digitsToNat ds : Int)

/-- `parseInt(v) || d`: an absent parameter, a non-numeric string, and the
falsy result `0` all fall back to the default. -/
def parseIntOr (v : Option String) (d : Int) : Int :=
  match v with
  | none => d
  | some s =>
    match parseIntJs s with
    | some n => if n = 0 then d else n
    | none => d

/-- The query-string parameters the records endpoint reads
(records.js 29-36); each is an optional string. -/
structure RecordsQuery where
  page : Option String := none
  limit : Option String := none
  startDate : Option String := none
  endDate : Option String := none
  taskResult : Option String := none
  planId : Option String := none
deriving DecidableEq, Repr

/-- `new Date(param)` for a truthy date query parameter: `some none` means
the filter is simply not set, `none` models the request failing
downstream (an Invalid Date handed to the database errors out). -/
def optDateParam (v : Option String) : Option (Option Int) :=
  match v with
  | some s =>
    if s = "" then some none
    else
      match parseDateString s with
      | some t => some (some t)
      | none => none
  | none => some none

/-- The records endpoint (records.js 29-66): `page` is clamped to at least
1, `limit` is clamped into `[1, 1000]` with default 1000
(`Math.min(1000, Math.max(1, parseInt(limit) || 1000))`), the four filters
are forwarded when truthy, and `getRecords` is called.  `none` is the
error response for an unparsable date parameter. -/
def recordsHandler (db : List StoredRecord) (q : RecordsQuery) : Option QueryResult :=
  let pageNum : Int := max 1 (parseIntOr q.page 1)
  let limitNum : Int := min 1000 (max 1 (parseIntOr q.limit 1000))
  match optDateParam q.startDate, optDateParam q.endDate with
  | some sd, some ed =>
    some (getRecords db
      { page := pageNum.toNat
        limit := limitNum.toNat
        startDate := sd
        endDate := ed
        taskResult := if presentS q.taskResult then q.taskResult else none
        planId := if presentS q.planId then q.planId else none })
  | _, _ => none

/-- The clear endpoint's outcome. -/
inductive ClearResponse where
  | emptyError
  | cleared (deletedCount remainingCount : Nat)
deriving DecidableEq, Repr

/-- The clear handler (clear handler lines 86-113): count the table; refuse
with a 400 when it is empty; otherwise `TRUNCATE ... RESTART IDENTITY`,
re-count (the `totalAfter !== 0` throw is unreachable after a successful
truncate) and report both counts. -/
def clearHandler (st : DbState) : DbState × ClearResponse :=
  let totalBefore := st.rows.length
  if totalBefore = 0 then (st, .emptyError)
  else
    let st1 : DbState := { rows := [], seq := 1 }
    let totalAfter := st1.rows.length
    (st1, .cleared totalBefore totalAfter)

/-- `row['计划ID'] || row.plan_id || row['Plan ID'] || ''`, the plan-id
alias chain of the import handlers. -/
def rowPlanRaw (row : ImportRow) : String :=
  (jsOrS3 row.planId_cn row.plan_id row.planId_sp).getD ""

/-- `row['任务结果状态'] || row.task_result || row['Task Result'] || ''`. -/
def rowTaskResultRaw (row : ImportRow) : String :=
  (jsOrS3 row.taskResult_cn row.task_result row.taskResult_sp).getD ""

/-- Outcome of one iteration of the import validation loop: a normalized
record pushed to `validRecords`, or an error message pushed to `errors`
(with `continue`). -/
inductive RowOutcome where
  | ok (record : ImportRow)
  | err (msg : String)
deriving DecidableEq, Repr

/-- The parsed time as it is placed under the `'开始时间'` key of the
normalized record: a `Date` object, or `null` when parsing failed with
validation off. -/
def msToTv : Option Int → TimeValue
  | some ms => .date ms
  | none => .tnull

/-- The normalized record of import.js 131-137: an object with the three
canonical keys followed by `...row`, so any key present in the original
row overrides its canonical value. -/
def normalizeImportRow (row : ImportRow) (planId : String) (parsedTime : Option Int)
    (taskResult : String) : ImportRow :=
  { row with
    planId_cn := some (row.planId_cn.getD planId)
    startTime_cn := some (row.startTime_cn.getD (msToTv parsedTime))
    taskResult_cn := some (row.taskResult_cn.getD taskResult) }

/-- The normalized record of import-batch.js 85-96: the three canonical
keys plus sentinel defaults for the descriptive fields, again followed by
`...row`. -/
def normalizeBatchRow (row : ImportRow) (planId : String) (parsedTime : Option Int)
    (taskResult : String) : ImportRow :=
  { row with
    planId_cn := some (row.planId_cn.getD planId)
    startTime_cn := some (row.startTime_cn.getD (msToTv parsedTime))
    taskResult_cn := some (row.taskResult_cn.getD taskResult)
    customer_cn := some (row.customer_cn.getD (jsOrD row.customer_cn row.customer "未知客户"))
    satelliteName_cn := some (row.satelliteName_cn.getD (jsOrD row.satelliteName_cn row.satellite_name "未知卫星"))
    stationName_cn := some (row.stationName_cn.getD (jsOrD row.stationName_cn row.station_name "未知测站"))
    stationId_cn := some (row.stationId_cn.getD (jsOrD row.stationId_cn row.station_id "未知ID"))
    taskType_cn := some (row.taskType_cn.getD (jsOrD row.taskType_cn row.task_type "未知类型")) }

/-- The time-parsing block shared verbatim by import.js 108-128 and
by import-batch.js 62-82, applied to the truthy raw time value: an Excel
serial uses the fixed epoch offset and the `isNaN` guard, a string goes to
the host date parser, a `Date` passes through. -/
def parseRowTime (startTime : TimeValue) : Option Int :=
  match startTime with
  | .num n =>
    let ms : Int := (n - 25569) * 86400000
    if ms.natAbs ≤ maxDateMs then some ms else none
  | .str s => parseDateString s
  | .date ms => some ms
  | .tnull => none

/-- One iteration of the validation loop of import.js 84-144.  With
validation on, an empty (trimmed) plan id, a falsy time value or an
unparsable time value each push one error and skip the row; with
validation off the row always goes through, an unparsable time becoming
`null`.  (The surrounding `try/catch` has no reachable throw site on this
data model.) -/
def processImportRow (validate : Bool) (rowNum : Nat) (row : ImportRow) : RowOutcome :=
  let planId := rowPlanRaw row
  let startTime := jsOrT3Def row.startTime_cn row.start_time row.startTime_sp
  let taskResult := rowTaskResultRaw row
  if trimJs planId = "" ∧ validate then
    .err ("第" ++ toString rowNum ++ "行：计划ID不能为空")
  else if tvTruthy startTime = false ∧ validate then
    .err ("第" ++ toString rowNum ++ "行：开始时间不能为空")
  else
    let parsedTime : Option Int :=
      if tvTruthy startTime then parseRowTime startTime else none
    if tvTruthy startTime ∧ parsedTime = none ∧ validate then
      .err ("第" ++ toString rowNum ++ "行：时间格式无效 \"" ++ tvRepr startTime ++ "\"")
    else
      .ok (normalizeImportRow row (trimJs planId) parsedTime (trimJs taskResult))

/-- One iteration of the validation loop of import-batch.js 38-103; it
differs from `processImportRow` only in the error-message prefix and in the
normalized record shape. -/
def processBatchRow (validate : Bool) (rowNum : Nat) (row : ImportRow) : RowOutcome :=
  let planId := rowPlanRaw row
  let startTime := jsOrT3Def row.startTime_cn row.start_time row.startTime_sp
  let taskResult := rowTaskResultRaw row
  if trimJs planId = "" ∧ validate then
    .err ("批次第" ++ toString rowNum ++ "行：计划ID不能为空")
  else if tvTruthy startTime = false ∧ validate then
    .err ("批次第" ++ toString rowNum ++ "行：开始时间不能为空")
  else
    let parsedTime : Option Int :=
      if tvTruthy startTime then parseRowTime startTime else none
    if tvTruthy startTime ∧ parsedTime = none ∧ validate then
      .err ("批次第" ++ toString rowNum ++ "行：时间格式无效 \"" ++ tvRepr startTime ++ "\"")
    else
      .ok (normalizeBatchRow row (trimJs planId) parsedTime (trimJs taskResult))

/-- The validation loop of import.js: Excel row numbers start at `i + 2`
(row 1 is the header). -/
def importValidateGo (validate : Bool) (i : Nat) : List ImportRow → List ImportRow × List String
  | [] => ([], [])
  | row :: rest =>
    let res := importValidateGo validate (i + 1) rest
    match processImportRow validate (i + 2) row with
    | .ok record => (record :: res.1, res.2)
    | .err msg => (res.1, msg :: res.2)

/-- `validRecords` and `errors` after the validation loop of import.js. -/
def importValidate (validate : Bool) (rawData : List ImportRow) : List ImportRow × List String :=
  importValidateGo validate 0 rawData

/-- The validation loop of import-batch.js: row numbers start at `i + 1`. -/
def batchValidateGo (validate : Bool) (i : Nat) : List ImportRow → List ImportRow × List String
  | [] => ([], [])
  | row :: rest =>
    let res := batchValidateGo validate (i + 1) rest
    match processBatchRow validate (i + 1) row with
    | .ok record => (record :: res.1, res.2)
    | .err msg => (res.1, msg :: res.2)

/-- `validRecords` and `errors` after the validation loop of
the import-batch.js handler. -/
def batchValidate (validate : Bool) (data : List ImportRow) : List ImportRow × List String :=
  batchValidateGo validate 0 data

/-- The import endpoints' response shapes that matter to the claims. -/
inductive ImportResponse where
  | badRequest (msg : String)
  | validationFailed (details : List String) (totalErrors : Nat) (validRecords : Nat)
  | success (imported total valid errors : Nat) (mode : String)
  | serverError
deriving DecidableEq, Repr

/-- Split a list into consecutive chunks of `n` (the
`validRecords.slice(i, i + batchSize)` loop of import.js 174-179). -/
def chunksGo (n : Nat) (acc : List ImportRow) : List ImportRow → List (List ImportRow)
  | [] => if acc.isEmpty then [] else [acc.reverse]
  | x :: xs =>
    if n ≤ (x :: acc).length then (x :: acc).reverse :: chunksGo n [] xs
    else chunksGo n (x :: acc) xs

/-- Chunks of at most `n` consecutive rows. -/
def chunksOf (n : Nat) (l : List ImportRow) : List (List ImportRow) :=
  chunksGo n [] l

/-- The insertion phase of import.js 170-183: one `batchInsertRecords`
call, or one per 100-row slice when `batch` was requested and more than 100
rows survived validation.  `structuralFail` injects the environment
behaviour of a structural error (connection loss) thrown by the first
`batchInsertRecords` call: its transaction rolls back, so the state of the
call is returned unchanged together with the propagated error. -/
def insertPhase (structuralFail : Bool) (st : DbState) (validRecords : List ImportRow)
    (batch : Bool) : DbState × Except Unit Nat :=
  if structuralFail then (st, Except.error ())
  else if batch ∧ 100 < validRecords.length then
    let res := (chunksOf 100 validRecords).foldl
      (fun acc chunk =>
        let r := batchInsertRecords acc.1 chunk
        (r.1, acc.2 + r.2))
      (st, 0)
    (res.1, Except.ok res.2)
  else
    let r := batchInsertRecords st validRecords
    (r.1, Except.ok r.2)

/-- The import handler of import.js from the parsed sheet on (lines
76-201): empty-sheet check, validation loop, strict-validation early
return with the error list capped at 10, no-valid-rows check, `replace`
truncation (a separate auto-committed statement outside the upsert
transaction; the unimplemented `update` branch falls through to append),
insertion phase, success response.  A thrown structural error reaches the
outer `catch` and becomes a 500. -/
def importCore (structuralFail : Bool) (st : DbState) (rawData : List ImportRow)
    (mode : String) (validate batch : Bool) : DbState × ImportResponse :=
  if rawData.isEmpty then (st, .badRequest "Excel文件中没有数据")
  else
    let vr := importValidate validate rawData
    if validate ∧ vr.2 ≠ [] then
      (st, .validationFailed (vr.2.take 10) vr.2.length vr.1.length)
    else if vr.1.isEmpty then (st, .badRequest "没有有效的记录可以导入")
    else
      let st1 := if mode = "replace" then ({ rows := [], seq := 1 } : DbState) else st
      match insertPhase structuralFail st1 vr.1 batch with
      | (st2, Except.ok inserted) =>
        (st2, .success inserted rawData.length vr.1.length vr.2.length mode)
      | (st2, Except.error _) => (st2, .serverError)

/-- The import-batch handler (import-batch.js 24-135): same shape as
`importCore` with the error list capped at 5 and no chunking. -/
def importBatchCore (structuralFail : Bool) (st : DbState) (data : List ImportRow)
    (mode : String) (validate : Bool) : DbState × ImportResponse :=
  if data.isEmpty then (st, .badRequest "数据数组不能为空")
  else
    let vr := batchValidate validate data
    if validate ∧ vr.2 ≠ [] then
      (st, .validationFailed (vr.2.take 5) vr.2.length vr.1.length)
    else if vr.1.isEmpty then (st, .badRequest "没有有效的记录可以导入")
    else
      let st1 := if mode = "replace" then ({ rows := [], seq := 1 } : DbState) else st
      if structuralFail then (st1, .serverError)
      else
        let r := batchInsertRecords st1 vr.1
        (r.1, .success r.2 data.length vr.1.length vr.2.length mode)

/-- The stats handler pipeline: aggregate, then post-process. -/
def statsCore (db : List StoredRecord) (startDate endDate : Option Int) : ProcessedStats :=
  processStats (getStats db startDate endDate)

/-! ### Concrete scenario data -/

/-- First row of the spec's example import batch:
`{plan_id:"P1", start_time:"2024-01-01 08:00:00", task_result:"正常"}`. -/
def exRow1 : ImportRow :=
  { planId_cn := some "P1"
    startTime_cn := some (.str "2024-01-01 08:00:00")
    taskResult_cn := some "正常" }

/-- Second row of the spec's example import batch:
`{plan_id:"P1", start_time:"2024-01-02 09:00:00", task_result:"失败"}`. -/
def exRow2 : ImportRow :=
  { planId_cn := some "P1"
    startTime_cn := some (.str "2024-01-02 09:00:00")
    taskResult_cn := some "失败" }

/-- The stored record the second example row upserts (its start time is the
wall-clock value 2024-01-02 09:00:00). -/
def exStored2 : StoredRecord :=
  { plan_id := "P1"
    customer := "未知客户"
    satellite_name := "未知卫星"
    station_name := "未知测站"
    station_id := "未知ID"
    start_time := 1704186000000
    task_type := "未知类型"
    task_result := "失败"
    raw_data := exRow2 }

/-- A row whose insert violates the `start_time NOT NULL` constraint: it
has a plan id but no time value under any alias. -/
def badTimeRow : ImportRow :=
  { planId_cn := some "P9" }

/-- A third valid row with a distinct plan id, arriving with an Excel
serial time. -/
def exRow3 : ImportRow :=
  { planId_cn := some "P2"
    startTime_cn := some (.num 45000)
    taskResult_cn := some "正常" }

/-! ### C4: per-row failure inside the shared transaction -/

/-- **C4 (code bug).**  The claim — a per-row insertion failure is caught
and skipped without aborting the transaction or the remaining rows, the
transaction commits and the function returns the successful-row count — is
what the code visibly intends (it catches the error, warns and continues),
but on Postgres the failed INSERT aborts the open transaction: every later
INSERT of the batch fails with "current transaction is aborted" and the
final COMMIT performs a rollback.  Evaluating the embedded semantics at
the batch [valid P1 row, row with no start time, valid P2 row] from an
empty table: the function reports 1 inserted row, yet the committed table
is empty — neither the count of successes nor any committed rows, against
both the claim and the code's own intent. -/
theorem c4_per_row_failure_aborts_whole_batch :
    (rowToStored exRow1).isSome = true
    ∧ rowToStored badTimeRow = none
    ∧ (rowToStored exRow3).isSome = true
    ∧ batchInsertRecords ⟨[], 1⟩ [exRow1, badTimeRow, exRow3] = (⟨[], 3⟩, 1) := by
  refine ⟨by decide, by decide, by decide, by decide⟩

/-! ### C5: success-rate division guard -/

/-- **C5.**  The statistics caller computes the success rate from
`(total_records - total_failures) / total_records` (as a percentage string
with two decimals), guarded by `total_records > 0`: on an empty aggregate
the rate is exactly the number `0`, and the division is never reached. -/
theorem c5_success_rate_zero_guard (db : List StoredRecord) (sd ed : Option Int) :
    ((getStats db sd ed).total_records = 0 →
      (statsCore db sd ed).success_rate = JsonVal.num 0)
    ∧ (0 < (getStats db sd ed).total_records →
      (statsCore db sd ed).success_rate =
        JsonVal.str (toFixed2 ((((getStats db sd ed).total_records : ℚ) -
          ((getStats db sd ed).total_failures : ℚ)) /
          ((getStats db sd ed).total_records : ℚ) * 100))) := by
  unfold statsCore processStats
  constructor
  · intro h
    simp [h]
  · intro h
    simp only [if_pos h]

/-- Witness for C5: the empty table has zero records and success rate
exactly the number 0. -/
theorem c5_success_rate_zero_guard_witness :
    (statsCore [] none none).success_rate = JsonVal.num 0 :=
  (c5_success_rate_zero_guard [] none none).1 rfl

/-! ### C7: clearing the table -/

/-- **C7.**  Clearing a table holding `n > 0` records truncates it,
resets the identity sequence to its start value and reports
`deletedCount = n`, `remainingCount = 0`; clearing an empty table is
refused with an error and mutates nothing. -/
theorem c7_clear_endpoint (st : DbState) (n : Nat) (hn : st.rows.length = n) :
    (0 < n → clearHandler st = (⟨[], 1⟩, ClearResponse.cleared n 0))
    ∧ (n = 0 → clearHandler st = (st, ClearResponse.emptyError)) := by
  unfold clearHandler
  constructor
  · intro hpos
    rw [hn]
    have hne : ¬ n = 0 := by omega
    simp [hne]
  · intro h0
    rw [hn, h0]
    simp

/-- Witness for C7: clearing a two-row table reports 2 deleted and 0
remaining and resets the sequence; clearing the empty table errors. -/
theorem c7_clear_endpoint_witness :
    clearHandler ⟨[exStored2, exStored2], 7⟩ = (⟨[], 1⟩, ClearResponse.cleared 2 0)
    ∧ clearHandler ⟨[], 7⟩ = (⟨[], 7⟩, ClearResponse.emptyError) :=
  ⟨(c7_clear_endpoint ⟨[exStored2, exStored2], 7⟩ 2 rfl).1 (by decide),
   (c7_clear_endpoint ⟨[], 7⟩ 0 rfl).2 rfl⟩

/-! ### C8: spreadsheet serial conversion -/

/-- **C8.**  A time value arriving as a (positive, `Date`-representable)
spreadsheet serial day count `n` converts to exactly
`(n - 25569) * 86400000` milliseconds since the epoch; the conversion is a
pure function of `n` — no timezone enters the formula — so serial `45000`
always yields 1678838400000 ms, the calendar date 2023-03-15. -/
theorem c8_excel_serial_conversion (n : Int) (hpos : 0 < n)
    (hrange : ((n - 25569) * 86400000).natAbs ≤ maxDateMs) :
    parseFileTime (some (.num n)) = some ((n - 25569) * 86400000)
    ∧ parseFileTime (some (.num 45000)) = some 1678838400000
    ∧ civilFromMs 1678838400000 = (2023, 3, 15) := by
  refine ⟨?_, by rfl, by rfl⟩
  unfold parseFileTime
  have hne : n ≠ 0 := by omega
  simp [tvTruthy, hne, hrange]

/-- Witness for C8 at serial 45000. -/
theorem c8_excel_serial_conversion_witness :
    parseFileTime (some (.num 45000)) = some 1678838400000 :=
  (c8_excel_serial_conversion 45000 (by decide) (by decide)).2.1

/-! ### C9: "update" import mode -/

/-- The success response with its echoed mode string replaced. -/
def respWithMode : ImportResponse → String → ImportResponse
  | .success a b c d _, m => .success a b c d m
  | r, _ => r

/-- **C9 (counterexample).**  "update" and "append" produce the same table
state, but not the same success response: the response echoes the
requested mode string, so the two responses differ on every
successful import. -/
theorem c9_counterexample_mode_echoed :
    (importCore false ⟨[], 1⟩ [exRow1] "update" false false).1 =
      (importCore false ⟨[], 1⟩ [exRow1] "append" false false).1
    ∧ (importCore false ⟨[], 1⟩ [exRow1] "update" false false).2 ≠
      (importCore false ⟨[], 1⟩ [exRow1] "append" false false).2 := by
  refine ⟨by decide, by decide⟩

/-- **C9 (amended).**  An import in mode "update" behaves identically to
mode "append" — same resulting table state for every input batch and prior
state, and the same response except for the mode string echoed inside the
success payload (the unimplemented branch falls through to append). -/
theorem c9_update_mode_is_append (structuralFail : Bool) (st : DbState)
    (rawData : List ImportRow) (validate batch : Bool) :
    (importCore structuralFail st rawData "update" validate batch).1 =
      (importCore structuralFail st rawData "append" validate batch).1
    ∧ (importCore structuralFail st rawData "update" validate batch).2 =
      respWithMode (importCore structuralFail st rawData "append" validate batch).2 "update" := by
  unfold importCore
  have hu : ¬ ("update" : String) = "replace" := by decide
  have ha : ¬ ("append" : String) = "replace" := by decide
  simp only [if_neg hu, if_neg ha]
  by_cases h1 : rawData.isEmpty = true
  · simp only [if_pos h1]
    exact ⟨by trivial, by trivial⟩
  · simp only [if_neg h1]
    by_cases h2 : validate = true ∧ (importValidate validate rawData).2 ≠ []
    · simp only [if_pos h2]
      exact ⟨by trivial, by trivial⟩
    · simp only [if_neg h2]
      by_cases h3 : (importValidate validate rawData).1.isEmpty = true
      · simp only [if_pos h3]
        exact ⟨by trivial, by trivial⟩
      · simp only [if_neg h3]
        rcases hph : insertPhase structuralFail st (importValidate validate rawData).1 batch with
          ⟨st2, k⟩
        rcases k with e | i
        · exact ⟨by trivial, by trivial⟩
        · exact ⟨by trivial, by trivial⟩

/-! ### C3: strict validation -/

/-- With strict validation on, a row whose trimmed plan-id chain is empty
takes the first error branch of the import.js loop. -/
theorem processImportRow_err_of_empty_plan (rowNum : Nat) (row : ImportRow)
    (hempty : trimJs (rowPlanRaw row) = "") :
    processImportRow true rowNum row =
      RowOutcome.err ("第" ++ toString rowNum ++ "行：计划ID不能为空") := by
  simp only [processImportRow]
  rw [if_pos ⟨hempty, trivial⟩]

/-- Likewise for the import-batch.js loop. -/
theorem processBatchRow_err_of_empty_plan (rowNum : Nat) (row : ImportRow)
    (hempty : trimJs (rowPlanRaw row) = "") :
    processBatchRow true rowNum row =
      RowOutcome.err ("批次第" ++ toString rowNum ++ "行：计划ID不能为空") := by
  simp only [processBatchRow]
  rw [if_pos ⟨hempty, trivial⟩]

/-- A batch containing a row with an empty plan id yields a non-empty
error list from the import.js validation loop under strict validation. -/
theorem importValidateGo_err_ne_nil (rawData : List ImportRow) (row : ImportRow)
    (hmem : row ∈ rawData) (hempty : trimJs (rowPlanRaw row) = "") :
    ∀ i, (importValidateGo true i rawData).2 ≠ [] := by
  induction rawData with
  | nil => cases hmem
  | cons hd tl ih =>
    intro i
    rcases List.mem_cons.mp hmem with heq | hmem2
    · subst heq
      unfold importValidateGo
      rw [processImportRow_err_of_empty_plan (i + 2) row hempty]
      simp
    · unfold importValidateGo
      cases hout : processImportRow true (i + 2) hd with
      | ok record =>
        simpa using ih hmem2 (i + 1)
      | err msg =>
        simp

/-- The same non-emptiness for the import-batch.js validation loop. -/
theorem batchValidateGo_err_ne_nil (rawData : List ImportRow) (row : ImportRow)
    (hmem : row ∈ rawData) (hempty : trimJs (rowPlanRaw row) = "") :
    ∀ i, (batchValidateGo true i rawData).2 ≠ [] := by
  induction rawData with
  | nil => cases hmem
  | cons hd tl ih =>
    intro i
    rcases List.mem_cons.mp hmem with heq | hmem2
    · subst heq
      unfold batchValidateGo
      rw [processBatchRow_err_of_empty_plan (i + 1) row hempty]
      simp
    · unfold batchValidateGo
      cases hout : processBatchRow true (i + 1) hd with
      | ok record =>
        simpa using ih hmem2 (i + 1)
      | err msg =>
        simp

/-- **C3.**  When strict validation is requested and the batch contains a
row-level error (here: a row whose plan id is empty after trimming),
both import endpoints reject the whole batch before any database mutation: the
state is returned untouched, and the 400 response carries the capped
per-row error list (10 for the file endpoint, 5 for the batch endpoint)
together with the uncapped total error count. -/
theorem c3_strict_validation_rejects_before_mutation (structuralFail : Bool)
    (st : DbState) (rawData : List ImportRow) (mode : String) (batch : Bool)
    (row : ImportRow) (hmem : row ∈ rawData)
    (hempty : trimJs (rowPlanRaw row) = "") :
    importCore structuralFail st rawData mode true batch =
      (st, ImportResponse.validationFailed ((importValidate true rawData).2.take 10)
        (importValidate true rawData).2.length (importValidate true rawData).1.length)
    ∧ ((importValidate true rawData).2.take 10).length ≤ 10
    ∧ (importValidate true rawData).2 ≠ []
    ∧ importBatchCore structuralFail st rawData mode true =
      (st, ImportResponse.validationFailed ((batchValidate true rawData).2.take 5)
        (batchValidate true rawData).2.length (batchValidate true rawData).1.length)
    ∧ ((batchValidate true rawData).2.take 5).length ≤ 5
    ∧ (batchValidate true rawData).2 ≠ [] := by
  have herr1 : (importValidate true rawData).2 ≠ [] :=
    importValidateGo_err_ne_nil rawData row hmem hempty 0
  have herr2 : (batchValidate true rawData).2 ≠ [] :=
    batchValidateGo_err_ne_nil rawData row hmem hempty 0
  have hne : rawData.isEmpty = false := by
    cases rawData
    · cases hmem
    · rfl
  refine ⟨?_, List.length_take_le 10 _, herr1, ?_, List.length_take_le 5 _, herr2⟩
  · simp only [importCore, hne, Bool.false_eq_true, if_false]
    rw [if_pos ⟨trivial, herr1⟩]
  · simp only [importBatchCore, hne, Bool.false_eq_true, if_false]
    rw [if_pos ⟨trivial, herr2⟩]

/-- Witness for C3: a two-row batch whose first row has plan id `" "`
(blank after trimming) is rejected whole by both endpoints, with the
original state returned. -/
theorem c3_strict_validation_witness :
    importCore false ⟨[], 1⟩ [{ planId_cn := some " " }, exRow1] "append" true false =
      (⟨[], 1⟩, ImportResponse.validationFailed ["第2行：计划ID不能为空"] 1 1)
    ∧ importBatchCore false ⟨[], 1⟩ [{ planId_cn := some " " }, exRow1] "append" true =
      (⟨[], 1⟩, ImportResponse.validationFailed ["批次第1行：计划ID不能为空"] 1 1) := by
  have h := c3_strict_validation_rejects_before_mutation false ⟨[], 1⟩
    [{ planId_cn := some " " }, exRow1] "append" false { planId_cn := some " " }
    (by decide) (by decide)
  exact ⟨h.1.trans (by decide), h.2.2.2.1.trans (by decide)⟩

/-! ### C10: replace mode is not atomic -/

/-- **C10.**  Replace-mode import truncates the table with an
auto-committed statement issued outside the upsert transaction.  If the
subsequent `batchInsertRecords` call fails with a structural error, only
its own inserts roll back: the handler reports a 500 and the table is left
empty — the records that existed before the import are not restored.  The
same holds for the batch endpoint. -/
theorem c10_replace_truncate_outside_transaction (st : DbState)
    (rawData : List ImportRow) (validate batch : Bool)
    (hvalid : (importValidate validate rawData).1 ≠ [])
    (hnoerr : ¬(validate = true ∧ (importValidate validate rawData).2 ≠ []))
    (hprior : st.rows ≠ []) :
    importCore true st rawData "replace" validate batch =
      (⟨[], 1⟩, ImportResponse.serverError)
    ∧ (importCore true st rawData "replace" validate batch).1.rows ≠ st.rows
    ∧ ((batchValidate validate rawData).1 ≠ [] →
        ¬(validate = true ∧ (batchValidate validate rawData).2 ≠ []) →
        importBatchCore true st rawData "replace" validate =
          (⟨[], 1⟩, ImportResponse.serverError)) := by
  have hne : rawData.isEmpty = false := by
    cases hr : rawData
    · rw [hr] at hvalid
      exact absurd rfl hvalid
    · rfl
  have hvempty : (importValidate validate rawData).1.isEmpty = false := by
    cases hv : (importValidate validate rawData).1
    · exact absurd hv hvalid
    · rfl
  have hmain : importCore true st rawData "replace" validate batch =
      (⟨[], 1⟩, ImportResponse.serverError) := by
    simp only [importCore, hne, Bool.false_eq_true, if_false]
    rw [if_neg hnoerr]
    simp only [hvempty, Bool.false_eq_true, if_false]
    rw [if_pos trivial]
    simp [insertPhase]
  refine ⟨hmain, ?_, ?_⟩
  · rw [hmain]
    exact fun h => hprior h.symm
  · intro hbvalid hbnoerr
    have hbvempty : (batchValidate validate rawData).1.isEmpty = false := by
      cases hv : (batchValidate validate rawData).1
      · exact absurd hv hbvalid
      · rfl
    simp only [importBatchCore, hne, Bool.false_eq_true, if_false]
    rw [if_neg hbnoerr]
    simp only [hbvempty, Bool.false_eq_true, if_false]
    rw [if_pos trivial]
    simp

/-- Witness for C10: a one-valid-row lenient replace import that hits a
structural error leaves the one-record table empty, not restored. -/
theorem c10_replace_truncate_witness :
    importCore true ⟨[exStored2], 2⟩ [exRow1] "replace" false false =
      (⟨[], 1⟩, ImportResponse.serverError)
    ∧ (importCore true ⟨[exStored2], 2⟩ [exRow1] "replace" false false).1.rows ≠
      [exStored2] := by
  have h := c10_replace_truncate_outside_transaction ⟨[exStored2], 2⟩ [exRow1] false false
    (by decide) (by decide) (by decide)
  exact ⟨h.1, h.2.1⟩

/-! ### C1: upsert keyed by plan_id -/

/-- The table produced by upserting each convertible row in order (the
committed effect of a batch in which no row fails). -/
def upsertAll (rows : List StoredRecord) (records : List ImportRow) : List StoredRecord :=
  records.foldl
    (fun acc record =>
      match rowToStored record with
      | some r => upsert acc r
      | none => acc)
    rows

/-- The last record in a list whose plan id is `p`. -/
def lastMatch (p : String) : List StoredRecord → Option StoredRecord
  | [] => none
  | r :: rest =>
    match lastMatch p rest with
    | some q => some q
    | none => if r.plan_id == p then some r else none

/-- The stored image of the last row of a batch that converts successfully
and carries plan id `p` — the "later import" of the claim. -/
def lastUpsertFor (records : List ImportRow) (p : String) : Option StoredRecord :=
  lastMatch p (records.filterMap rowToStored)

theorem mem_keys_upsert (rows : List StoredRecord) (r : StoredRecord) (q : String) :
    q ∈ keys (upsert rows r) ↔ q ∈ keys rows ∨ q = r.plan_id := by
  induction rows with
  | nil => simp [upsert, keys]
  | cons x xs ih =>
    by_cases hx : x.plan_id = r.plan_id
    · simp only [upsert, if_pos hx, keys, List.map_cons, List.mem_cons]
      rw [hx]
      tauto
    · simp only [upsert, if_neg hx, keys, List.map_cons, List.mem_cons]
      rw [show keys (upsert xs r) = (upsert xs r).map (fun s => s.plan_id) from rfl] at ih
      rw [show keys xs = xs.map (fun s => s.plan_id) from rfl] at ih
      tauto

theorem keys_upsert_nodup (rows : List StoredRecord) (r : StoredRecord)
    (hnd : (keys rows).Nodup) : (keys (upsert rows r)).Nodup := by
  induction rows with
  | nil => simp [upsert, keys]
  | cons x xs ih =>
    simp only [keys, List.map_cons, List.nodup_cons] at hnd
    by_cases hx : x.plan_id = r.plan_id
    · simp only [upsert, if_pos hx, keys, List.map_cons, List.nodup_cons]
      refine ⟨?_, hnd.2⟩
      rw [← hx]
      exact hnd.1
    · simp only [upsert, if_neg hx, keys, List.map_cons, List.nodup_cons]
      refine ⟨?_, ih hnd.2⟩
      intro hmem
      rcases (mem_keys_upsert xs r x.plan_id).mp hmem with h | h
      · exact hnd.1 h
      · exact hx h

theorem filter_eq_nil_of_not_mem_keys (rows : List StoredRecord) (p : String)
    (hp : p ∉ keys rows) : rows.filter (fun s => s.plan_id == p) = [] := by
  induction rows with
  | nil => rfl
  | cons x xs ih =>
    simp only [keys, List.map_cons, List.mem_cons] at hp
    push_neg at hp
    have hx : (x.plan_id == p) = false := by
      simp only [beq_eq_false_iff_ne, ne_eq]
      intro h
      exact hp.1 h.symm
    simp only [List.filter_cons, hx, Bool.false_eq_true, if_false]
    exact ih (by simpa [keys] using hp.2)

theorem filter_upsert_self (rows : List StoredRecord) (r : StoredRecord) (p : String)
    (hnd : (keys rows).Nodup) (hp : r.plan_id = p) :
    (upsert rows r).filter (fun s => s.plan_id == p) = [r] := by
  induction rows with
  | nil => simp [upsert, List.filter_cons, hp]
  | cons x xs ih =>
    simp only [keys, List.map_cons, List.nodup_cons] at hnd
    by_cases hx : x.plan_id = r.plan_id
    · have hnot : p ∉ keys xs := by
        rw [← hp, ← hx]
        exact hnd.1
      simp [upsert, hx, List.filter_cons, hp, filter_eq_nil_of_not_mem_keys xs p hnot]
    · have hxp : (x.plan_id == p) = false := by
        simp only [beq_eq_false_iff_ne, ne_eq]
        rw [← hp]
        exact hx
      simp only [upsert, if_neg hx, List.filter_cons, hxp, Bool.false_eq_true, if_false]
      exact ih hnd.2

theorem filter_upsert_other (rows : List StoredRecord) (r : StoredRecord) (p : String)
    (hp : r.plan_id ≠ p) :
    (upsert rows r).filter (fun s => s.plan_id == p) =
      rows.filter (fun s => s.plan_id == p) := by
  have hrp : (r.plan_id == p) = false := by
    simpa only [beq_eq_false_iff_ne, ne_eq] using hp
  induction rows with
  | nil => simp [upsert, List.filter_cons, hrp]
  | cons x xs ih =>
    by_cases hx : x.plan_id = r.plan_id
    · have hxp : (x.plan_id == p) = false := by
        simp only [beq_eq_false_iff_ne, ne_eq]
        rw [hx]
        exact hp
      simp [upsert, if_pos hx, List.filter_cons, hrp, hxp]
    · simp only [upsert, if_neg hx, List.filter_cons]
      rw [ih]

theorem lastMatch_eq_none (p : String) (l : List StoredRecord)
    (h : lastMatch p l = none) : ∀ q ∈ l, (q.plan_id == p) = false := by
  induction l with
  | nil => intro q hq; cases hq
  | cons x xs ih =>
    intro q hq
    unfold lastMatch at h
    cases hx : lastMatch p xs with
    | some w => rw [hx] at h; cases h
    | none =>
      rw [hx] at h
      rcases List.mem_cons.mp hq with rfl | hq2
      · by_cases hb : (q.plan_id == p) = true
        · rw [if_pos hb] at h; cases h
        · exact Bool.eq_false_iff.mpr (fun hc => hb (by rw [hc]))
      · exact ih hx q hq2

theorem upsertAll_filter_untouched (records : List ImportRow) :
    ∀ (rows : List StoredRecord) (p : String),
      (∀ q ∈ records.filterMap rowToStored, (q.plan_id == p) = false) →
      (upsertAll rows records).filter (fun s => s.plan_id == p) =
        rows.filter (fun s => s.plan_id == p) := by
  induction records with
  | nil => intro rows p _; rfl
  | cons record rest ih =>
    intro rows p hq
    cases h0 : rowToStored record with
    | none =>
      have : upsertAll rows (record :: rest) = upsertAll rows rest := by
        simp [upsertAll, h0]
      rw [this]
      refine ih rows p ?_
      intro q hqmem
      refine hq q ?_
      simpa [List.filterMap_cons, h0] using hqmem
    | some r0 =>
      have hstep : upsertAll rows (record :: rest) = upsertAll (upsert rows r0) rest := by
        simp [upsertAll, h0]
      rw [hstep]
      have hr0 : (r0.plan_id == p) = false := by
        refine hq r0 ?_
        simp [List.filterMap_cons, h0]
      have hrest : ∀ q ∈ rest.filterMap rowToStored, (q.plan_id == p) = false := by
        intro q hqmem
        refine hq q ?_
        simp [List.filterMap_cons, h0, hqmem]
      rw [ih (upsert rows r0) p hrest]
      exact filter_upsert_other rows r0 p (by simpa [beq_eq_false_iff_ne] using hr0)

theorem upsertAll_nodup (records : List ImportRow) :
    ∀ rows : List StoredRecord, (keys rows).Nodup →
      (keys (upsertAll rows records)).Nodup := by
  induction records with
  | nil => intro rows h; exact h
  | cons record rest ih =>
    intro rows h
    cases h0 : rowToStored record with
    | none =>
      have : upsertAll rows (record :: rest) = upsertAll rows rest := by
        simp [upsertAll, h0]
      rw [this]
      exact ih rows h
    | some r0 =>
      have hstep : upsertAll rows (record :: rest) = upsertAll (upsert rows r0) rest := by
        simp [upsertAll, h0]
      rw [hstep]
      exact ih (upsert rows r0) (keys_upsert_nodup rows r0 h)

theorem upsertAll_filter_last (records : List ImportRow) :
    ∀ (rows : List StoredRecord) (p : String) (r : StoredRecord),
      (keys rows).Nodup → lastUpsertFor records p = some r →
      (upsertAll rows records).filter (fun s => s.plan_id == p) = [r] := by
  induction records with
  | nil =>
    intro rows p r _ hlast
    cases hlast
  | cons record rest ih =>
    intro rows p r hnd hlast
    cases h0 : rowToStored record with
    | none =>
      have hstep : upsertAll rows (record :: rest) = upsertAll rows rest := by
        simp [upsertAll, h0]
      have hlast2 : lastUpsertFor rest p = some r := by
        unfold lastUpsertFor at hlast ⊢
        simpa [List.filterMap_cons, h0] using hlast
      rw [hstep]
      exact ih rows p r hnd hlast2
    | some r0 =>
      have hstep : upsertAll rows (record :: rest) = upsertAll (upsert rows r0) rest := by
        simp [upsertAll, h0]
      rw [hstep]
      have hfm : (record :: rest).filterMap rowToStored =
          r0 :: rest.filterMap rowToStored := by
        simp [List.filterMap_cons, h0]
      unfold lastUpsertFor at hlast
      rw [hfm] at hlast
      unfold lastMatch at hlast
      cases hlm : lastMatch p (rest.filterMap rowToStored) with
      | some q =>
        rw [hlm] at hlast
        cases hlast
        exact ih (upsert rows r0) p r (keys_upsert_nodup rows r0 hnd) hlm
      | none =>
        rw [hlm] at hlast
        by_cases hb : (r0.plan_id == p) = true
        · rw [if_pos hb] at hlast
          have hrr : r0 = r := by
            injection hlast
          subst hrr
          have hnone : ∀ q ∈ rest.filterMap rowToStored, (q.plan_id == p) = false :=
            lastMatch_eq_none p _ hlm
          rw [upsertAll_filter_untouched rest (upsert rows r0) p hnone]
          exact filter_upsert_self rows r0 p hnd (by simpa using hb)
        · rw [if_neg hb] at hlast
          cases hlast

/-- With every row of the batch convertible, the transaction loop never
aborts: it upserts each row in order and counts them all. -/
theorem batchGo_all_valid (records : List ImportRow) :
    ∀ (rows : List StoredRecord) (seq n : Nat),
      (∀ row ∈ records, (rowToStored row).isSome) →
      batchGo rows seq n false records =
        ⟨upsertAll rows records, seq + records.length, n + records.length, false⟩ := by
  induction records with
  | nil => intro rows seq n _; simp [batchGo, upsertAll]
  | cons record rest ih =>
    intro rows seq n hval
    have h0 : (rowToStored record).isSome := hval record (List.mem_cons_self record rest)
    rcases Option.isSome_iff_exists.mp h0 with ⟨r0, hr0⟩
    have hrest : ∀ row ∈ rest, (rowToStored row).isSome := by
      intro row hrow
      exact hval row (List.mem_cons_of_mem record hrow)
    simp only [batchGo, Bool.false_eq_true, if_false, hr0]
    rw [ih (upsert rows r0) (seq + 1) (n + 1) hrest]
    have hstep : upsertAll rows (record :: rest) = upsertAll (upsert rows r0) rest := by
      simp [upsertAll, hr0]
    rw [← hstep]
    simp only [List.length_cons, TxRes.mk.injEq]
    refine ⟨by trivial, by omega, by omega, by trivial⟩

/-- The transaction loop preserves key uniqueness whatever happens. -/
theorem batchGo_nodup (records : List ImportRow) :
    ∀ (rows : List StoredRecord) (seq n : Nat) (ab : Bool),
      (keys rows).Nodup → (keys (batchGo rows seq n ab records).rows).Nodup := by
  induction records with
  | nil => intro rows seq n ab h; exact h
  | cons record rest ih =>
    intro rows seq n ab h
    cases ab with
    | true =>
      simp only [batchGo, if_pos rfl]
      exact ih rows seq n true h
    | false =>
      cases h0 : rowToStored record with
      | none =>
        simp only [batchGo, Bool.false_eq_true, if_false, h0]
        exact ih rows (seq + 1) n true h
      | some r0 =>
        simp only [batchGo, Bool.false_eq_true, if_false, h0]
        exact ih (upsert rows r0) (seq + 1) (n + 1) false (keys_upsert_nodup rows r0 h)

/-- **C1.**  `plan_id` is an upsert key: committing a batch whose rows all
convert (the imports the claim quantifies over) against a table with unique
plan ids yields a table that is still duplicate-free, and the unique record
stored under any plan id carried by the batch is exactly the stored image
of the *last* batch row with that plan id — every mutable column
(customer, satellite_name, station_name, station_id, start_time, task_type,
task_result, raw_data) equals the later import's, whether the key already
existed in the table or appeared twice within the batch. -/
theorem c1_upsert_unique_last_import_wins (st : DbState) (records : List ImportRow)
    (p : String) (r : StoredRecord)
    (hnd : (keys st.rows).Nodup)
    (hval : ∀ row ∈ records, (rowToStored row).isSome)
    (hlast : lastUpsertFor records p = some r) :
    (keys (batchInsertRecords st records).1.rows).Nodup
    ∧ (batchInsertRecords st records).1.rows.filter (fun s => s.plan_id == p) = [r] := by
  have hgo := batchGo_all_valid records st.rows st.seq 0 hval
  unfold batchInsertRecords
  rw [hgo]
  simp only [Bool.false_eq_true, if_false]
  exact ⟨upsertAll_nodup records st.rows hnd,
    upsertAll_filter_last records st.rows p r hnd hlast⟩

/-- Witness for C1: the spec's example batch (two rows for plan "P1", the
second with result 失败 and start time 2024-01-02 09:00:00) committed into
an empty table yields exactly one "P1" record, carrying the second row's
fields. -/
theorem c1_upsert_unique_last_import_wins_witness :
    (batchInsertRecords ⟨[], 1⟩ [exRow1, exRow2]).1.rows.filter
      (fun s => s.plan_id == "P1") = [exStored2]
    ∧ (keys (batchInsertRecords ⟨[], 1⟩ [exRow1, exRow2]).1.rows).Nodup := by
  have h := c1_upsert_unique_last_import_wins ⟨[], 1⟩ [exRow1, exRow2] "P1" exStored2
    (by decide) (by decide) (by decide)
  exact ⟨h.2, h.1⟩

/-! ### C2: WHERE-clause semantics, ordering, paging -/

/-- The (zero- or one-element) clause segment a date bound contributes. -/
def dateSeg (v : Option Int) (f : Int → Cond) : List Cond :=
  match v with
  | some t => [f t]
  | none => []

/-- The clause segment a string filter contributes: exactly one equality
predicate when the field is truthy, nothing otherwise. -/
def strSeg (v : Option String) (f : String → Cond) : List Cond :=
  if presentS v then [f (v.getD "")] else []

/-- The WHERE clause as the fixed-order concatenation of per-field
segments: startDate, endDate, taskResult, planId, customer, satelliteName,
stationName, stationId, taskType. -/
def condsOfOptions (o : QueryOptions) : List Cond :=
  dateSeg o.startDate Cond.startGe ++ dateSeg o.endDate Cond.endLe ++
    strSeg o.taskResult Cond.taskResultEq ++ strSeg o.planId Cond.planIdEq ++
    strSeg o.customer Cond.customerEq ++ strSeg o.satelliteName Cond.satelliteNameEq ++
    strSeg o.stationName Cond.stationNameEq ++ strSeg o.stationId Cond.stationIdEq ++
    strSeg o.taskType Cond.taskTypeEq

/-- Row semantics of the start-time lower bound (no constraint when
omitted). -/
def startOk (o : QueryOptions) (r : StoredRecord) : Bool :=
  match o.startDate with
  | some t => decide (t ≤ r.start_time)
  | none => true

/-- Row semantics of the start-time upper bound. -/
def endOk (o : QueryOptions) (r : StoredRecord) : Bool :=
  match o.endDate with
  | some t => decide (r.start_time ≤ t)
  | none => true

/-- Row semantics of one equality filter: no constraint when the filter is
absent or empty. -/
def strEqOk (v : Option String) (x : String) : Bool :=
  if presentS v then decide (x = v.getD "") else true

/-- The per-field conjunction the WHERE clause denotes. -/
def matchesFields (o : QueryOptions) (r : StoredRecord) : Bool :=
  startOk o r && endOk o r && strEqOk o.taskResult r.task_result &&
    strEqOk o.planId r.plan_id && strEqOk o.customer r.customer &&
    strEqOk o.satelliteName r.satellite_name && strEqOk o.stationName r.station_name &&
    strEqOk o.stationId r.station_id && strEqOk o.taskType r.task_type

theorem push_dateSeg (cs : List Cond) (v : Option Int) (f : Int → Cond) :
    (match v with
      | some t => cs ++ [f t]
      | none => cs) = cs ++ dateSeg v f := by
  cases v <;> simp [dateSeg]

theorem push_strSeg (cs : List Cond) (v : Option String) (f : String → Cond) :
    (if presentS v = true then cs ++ [f (v.getD "")] else cs) = cs ++ strSeg v f := by
  by_cases h : presentS v = true <;> simp [strSeg, h]

/-- The sequential builder produces exactly the fixed-order concatenation
of per-field segments. -/
theorem buildWhere_eq_condsOfOptions (o : QueryOptions) :
    buildWhere o = condsOfOptions o := by
  simp only [buildWhere, push_dateSeg, push_strSeg]
  simp only [condsOfOptions, List.nil_append, List.append_assoc]

theorem all_dateSeg_start (v : Option Int) (r : StoredRecord) :
    (dateSeg v Cond.startGe).all (fun c => evalCond c r) =
      (match v with
        | some t => decide (t ≤ r.start_time)
        | none => true) := by
  cases v <;> simp [dateSeg, evalCond]

theorem all_dateSeg_end (v : Option Int) (r : StoredRecord) :
    (dateSeg v Cond.endLe).all (fun c => evalCond c r) =
      (match v with
        | some t => decide (r.start_time ≤ t)
        | none => true) := by
  cases v <;> simp [dateSeg, evalCond]

theorem all_strSeg_taskResult (v : Option String) (r : StoredRecord) :
    (strSeg v Cond.taskResultEq).all (fun c => evalCond c r) = strEqOk v r.task_result := by
  by_cases h : presentS v = true <;> simp [strSeg, strEqOk, evalCond, h]

theorem all_strSeg_planId (v : Option String) (r : StoredRecord) :
    (strSeg v Cond.planIdEq).all (fun c => evalCond c r) = strEqOk v r.plan_id := by
  by_cases h : presentS v = true <;> simp [strSeg, strEqOk, evalCond, h]

theorem all_strSeg_customer (v : Option String) (r : StoredRecord) :
    (strSeg v Cond.customerEq).all (fun c => evalCond c r) = strEqOk v r.customer := by
  by_cases h : presentS v = true <;> simp [strSeg, strEqOk, evalCond, h]

theorem all_strSeg_satelliteName (v : Option String) (r : StoredRecord) :
    (strSeg v Cond.satelliteNameEq).all (fun c => evalCond c r) =
      strEqOk v r.satellite_name := by
  by_cases h : presentS v = true <;> simp [strSeg, strEqOk, evalCond, h]

theorem all_strSeg_stationName (v : Option String) (r : StoredRecord) :
    (strSeg v Cond.stationNameEq).all (fun c => evalCond c r) = strEqOk v r.station_name := by
  by_cases h : presentS v = true <;> simp [strSeg, strEqOk, evalCond, h]

theorem all_strSeg_stationId (v : Option String) (r : StoredRecord) :
    (strSeg v Cond.stationIdEq).all (fun c => evalCond c r) = strEqOk v r.station_id := by
  by_cases h : presentS v = true <;> simp [strSeg, strEqOk, evalCond, h]

theorem all_strSeg_taskType (v : Option String) (r : StoredRecord) :
    (strSeg v Cond.taskTypeEq).all (fun c => evalCond c r) = strEqOk v r.task_type := by
  by_cases h : presentS v = true <;> simp [strSeg, strEqOk, evalCond, h]

/-- The assembled clause means exactly the AND of the individual field
conditions. -/
theorem matchesWhere_eq_matchesFields (o : QueryOptions) (r : StoredRecord) :
    matchesWhere o r = matchesFields o r := by
  unfold matchesWhere matchesFields startOk endOk
  rw [buildWhere_eq_condsOfOptions]
  unfold condsOfOptions
  simp only [List.all_append, all_dateSeg_start, all_dateSeg_end, all_strSeg_taskResult,
    all_strSeg_planId, all_strSeg_customer, all_strSeg_satelliteName, all_strSeg_stationName,
    all_strSeg_stationId, all_strSeg_taskType, Bool.and_assoc]

theorem mem_insertDesc (r x : StoredRecord) (l : List StoredRecord) :
    x ∈ insertDesc r l ↔ x = r ∨ x ∈ l := by
  induction l with
  | nil => simp [insertDesc]
  | cons y ys ih =>
    unfold insertDesc
    by_cases h : y.start_time < r.start_time
    · rw [if_pos h]
      simp
    · rw [if_neg h]
      simp [ih]
      tauto

theorem pairwise_insertDesc (r : StoredRecord) (l : List StoredRecord)
    (h : l.Pairwise (fun a b => b.start_time ≤ a.start_time)) :
    (insertDesc r l).Pairwise (fun a b => b.start_time ≤ a.start_time) := by
  induction l with
  | nil => simp [insertDesc]
  | cons y ys ih =>
    rcases List.pairwise_cons.mp h with ⟨hy, hys⟩
    unfold insertDesc
    by_cases hlt : y.start_time < r.start_time
    · rw [if_pos hlt]
      refine List.pairwise_cons.mpr ⟨?_, h⟩
      intro z hz
      rcases List.mem_cons.mp hz with rfl | hz2
      · omega
      · have := hy z hz2
        omega
    · rw [if_neg hlt]
      refine List.pairwise_cons.mpr ⟨?_, ih hys⟩
      intro z hz
      rcases (mem_insertDesc r z ys).mp hz with rfl | hz2
      · omega
      · exact hy z hz2

theorem pairwise_sortDesc (l : List StoredRecord) :
    (sortDesc l).Pairwise (fun a b => b.start_time ≤ a.start_time) := by
  induction l with
  | nil => simp [sortDesc]
  | cons x xs ih =>
    unfold sortDesc
    exact pairwise_insertDesc x (sortDesc xs) ih

theorem mem_sortDesc (l : List StoredRecord) (x : StoredRecord) :
    x ∈ sortDesc l ↔ x ∈ l := by
  induction l with
  | nil => simp [sortDesc]
  | cons y ys ih =>
    unfold sortDesc
    rw [mem_insertDesc]
    simp [ih]

/-- **C2.**  `getRecords` builds its WHERE clause deterministically: the
clause is the fixed-order concatenation of one parameterized predicate per
truthy filter field (startDate, endDate, taskResult, planId, customer,
satelliteName, stationName, stationId, taskType); its row semantics is the
AND of the per-field conditions with omitted fields contributing no
constraint; the returned page is the start_time-descending ordering of the
matching rows sliced with OFFSET `(page-1)*limit` and LIMIT `limit`; and
under the filter `taskResult = "正常"` every returned record's result
equals `"正常"`. -/
theorem c2_query_builder_semantics (db : List StoredRecord) (o : QueryOptions)
    (r : StoredRecord) :
    buildWhere o = condsOfOptions o
    ∧ matchesWhere o r = matchesFields o r
    ∧ (getRecords db o).records =
        ((sortDesc (db.filter (fun s => matchesWhere o s))).drop
          ((o.page - 1) * o.limit)).take o.limit
    ∧ (getRecords db o).records.Pairwise (fun a b => b.start_time ≤ a.start_time)
    ∧ (o.taskResult = some "正常" →
        ((getRecords db o).records.all (fun s => s.task_result == "正常")) = true) := by
  refine ⟨buildWhere_eq_condsOfOptions o, matchesWhere_eq_matchesFields o r, rfl, ?_, ?_⟩
  · have hsorted := pairwise_sortDesc (db.filter (fun s => matchesWhere o s))
    have hsub : List.Sublist (((sortDesc (db.filter (fun s => matchesWhere o s))).drop
        ((o.page - 1) * o.limit)).take o.limit)
        (sortDesc (db.filter (fun s => matchesWhere o s))) :=
      List.Sublist.trans (List.take_sublist _ _) (List.drop_sublist _ _)
    exact List.Pairwise.sublist hsub hsorted
  · intro htr
    refine List.all_eq_true.mpr ?_
    intro s hs
    have hs2 : s ∈ sortDesc (db.filter (fun s2 => matchesWhere o s2)) :=
      List.mem_of_mem_drop (List.mem_of_mem_take hs)
    have hs3 : s ∈ db.filter (fun s2 => matchesWhere o s2) :=
      (mem_sortDesc _ s).mp hs2
    have hmatch : matchesWhere o s = true := List.of_mem_filter hs3
    rw [matchesWhere_eq_matchesFields] at hmatch
    unfold matchesFields at hmatch
    simp only [Bool.and_eq_true] at hmatch
    have htrc := hmatch.1.1.1.1.1.1.2
    rw [htr] at htrc
    unfold strEqOk at htrc
    have hpres : presentS (some "正常") = true := by decide
    rw [if_pos hpres] at htrc
    simp only [Option.getD_some] at htrc
    simp [of_decide_eq_true htrc]

/-- Witness for C2: a two-record table filtered by `taskResult = "正常"`
returns only records whose result is `"正常"`. -/
theorem c2_query_builder_semantics_witness :
    ((getRecords [exStored2,
        { plan_id := "P2"
          customer := "未知客户"
          satellite_name := "未知卫星"
          station_name := "未知测站"
          station_id := "未知ID"
          start_time := 1678838400000
          task_type := "未知类型"
          task_result := "正常"
          raw_data := exRow3 }] { taskResult := some "正常" }).records.all
      (fun s => s.task_result == "正常")) = true :=
  (c2_query_builder_semantics _ { taskResult := some "正常" } exStored2).2.2.2.2 rfl

/-! ### C6: page-size limit of the records endpoint -/

theorem insertDesc_length (r : StoredRecord) (l : List StoredRecord) :
    (insertDesc r l).length = l.length + 1 := by
  induction l with
  | nil => rfl
  | cons y ys ih =>
    unfold insertDesc
    by_cases h : y.start_time < r.start_time
    · rw [if_pos h]
      rfl
    · rw [if_neg h]
      simp only [List.length_cons, ih]

theorem sortDesc_length (l : List StoredRecord) : (sortDesc l).length = l.length := by
  induction l with
  | nil => rfl
  | cons y ys ih =>
    unfold sortDesc
    rw [insertDesc_length, ih]
    rfl

/-- A 1001-row table in which every record matches the unfiltered query. -/
def c6db : List StoredRecord :=
  (List.range 1001).map (fun (i : Nat) =>
    { plan_id := "P" ++ toString i
      customer := "客户"
      satellite_name := "卫星"
      station_name := "测站"
      station_id := "ID"
      start_time := Int.ofNat i
      task_type := "类型"
      task_result := "正常"
      raw_data := {} })

/-- The options the records endpoint builds for a request with every query
parameter omitted: page 1 and the clamped default limit 1000. -/
def c6opts : QueryOptions :=
  { page := 1, limit := 1000 }

set_option maxRecDepth 4000 in
/-- **C6 (counterexample).**  A request to the records endpoint with no
`limit` parameter is not unbounded: the endpoint defaults the limit to
1000 (`Math.min(1000, Math.max(1, parseInt(limit) || 1000))`), so over a
1001-row table the single page returns 1000 records while 1001 match —
not all matching records. -/
theorem c6_counterexample_limit_capped :
    (recordsHandler c6db ({} : RecordsQuery)).map
      (fun res => (res.records.length, res.total)) = some (1000, 1001) := by
  have hfil : c6db.filter (fun s => matchesWhere c6opts s) = c6db :=
    List.filter_eq_self.mpr (fun a ha => rfl)
  have hlen : c6db.length = 1001 := by
    simp only [c6db, List.length_map, List.length_range]
  have hh : recordsHandler c6db ({} : RecordsQuery) = some (getRecords c6db c6opts) := rfl
  rw [hh]
  have h1 : (getRecords c6db c6opts).records.length = 1000 := by
    show (((sortDesc (c6db.filter (fun s => matchesWhere c6opts s))).drop
      ((c6opts.page - 1) * c6opts.limit)).take c6opts.limit).length = 1000
    rw [hfil]
    simp [List.length_take, List.length_drop, sortDesc_length, hlen, c6opts]
  have h2 : (getRecords c6db c6opts).total = 1001 := by
    show (c6db.filter (fun s => matchesWhere c6opts s)).length = 1001
    rw [hfil]
    exact hlen
  show some ((getRecords c6db c6opts).records.length, (getRecords c6db c6opts).total) =
    some (1000, 1001)
  rw [h1, h2]

/-- **C6 (amended).**  When the `limit` query parameter is omitted, the
records endpoint uses page size 1000 (its clamp caps any limit at 1000),
so one page holds at most 1000 records; only the data-access layer's
`getRecords` is unbounded when its own options omit `limit` (the default
`Number.MAX_SAFE_INTEGER` returns every matching record on page 1). -/
theorem c6_limit_default_1000 :
    (∀ (db : List StoredRecord) (q : RecordsQuery) (res : QueryResult),
      q.limit = none → recordsHandler db q = some res →
      res.limit = 1000 ∧ res.records.length ≤ 1000)
    ∧ (∀ (db : List StoredRecord) (o : QueryOptions),
      o.page = 1 → o.limit = 9007199254740991 → db.length ≤ 9007199254740991 →
      (getRecords db o).records.length =
        (db.filter (fun s => matchesWhere o s)).length) := by
  constructor
  · intro db q res hq hres
    unfold recordsHandler at hres
    rw [hq] at hres
    cases hsd : optDateParam q.startDate with
    | none =>
      rw [hsd] at hres
      cases hres
    | some sd =>
      cases hed : optDateParam q.endDate with
      | none =>
        rw [hsd, hed] at hres
        cases hres
      | some ed =>
        rw [hsd, hed] at hres
        have hres2 := Option.some.inj hres
        subst hres2
        constructor
        · rfl
        · exact List.length_take_le _ _
  · intro db o h1 h2 h3
    have hflen : (db.filter (fun s => matchesWhere o s)).length ≤ 9007199254740991 :=
      le_trans (List.length_filter_le _ _) h3
    show (((sortDesc (db.filter (fun s => matchesWhere o s))).drop
      ((o.page - 1) * o.limit)).take o.limit).length = _
    rw [h1, h2]
    simp only [Nat.sub_self, Nat.zero_mul, List.drop_zero, List.length_take,
      sortDesc_length]
    omega

/-- Witness for C6 (amended): the empty table under an omitted limit gets
page size 1000, and the db layer's default returns every matching row. -/
theorem c6_limit_default_1000_witness :
    (getRecords ([] : List StoredRecord) c6opts).limit = 1000
    ∧ (getRecords ([] : List StoredRecord) ({} : QueryOptions)).records.length =
      (([] : List StoredRecord).filter (fun s => matchesWhere {} s)).length :=
  ⟨(c6_limit_default_1000.1 [] {} (getRecords [] c6opts) rfl rfl).1,
   c6_limit_default_1000.2 [] {} rfl rfl (by decide)⟩

end SatRec
